import Mathlib

/-!
# Verification of the MCP tool-discovery engine

Shallow embedding of `src/core/mcp-tool-discovery.js` (class `MCPToolDiscovery`):
the extraction chain `extractToolsFromOutput`, the process session
`queryServerForTools` (modelled as a step relation over delivered
close/error/timer events), the cache, and `discoverTools`.

JavaScript values appearing in the extractor are modelled by a `Json` type;
`JSON.parse` is embedded as a fuel-indexed recursive-descent parser over the
character list of the candidate substring.  The regexes of the extractor are
embedded as deterministic scanners that realise the leftmost, lazy/greedy
semantics of the concrete patterns in the source (each scanner is documented
with the regex literal it embeds).
-/

/-! ## JSON values

JavaScript values as produced by `JSON.parse`.  Numbers are kept as their
source lexeme (the extractor never computes with numbers; it only tests
truthiness, which is decidable on the lexeme except for float underflow,
which we do not model).  Object fields keep their textual order; property
lookup takes the last binding, as `JSON.parse` does for duplicate keys. -/

mutual
inductive Json where
  | null : Json
  | bool (b : Bool) : Json
  | num (lexeme : String) : Json
  | str (s : String) : Json
  | arr (items : JsonList) : Json
  | obj (fields : JsonFields) : Json
  deriving DecidableEq, Repr

inductive JsonList where
  | nil : JsonList
  | cons (hd : Json) (tl : JsonList) : JsonList
  deriving DecidableEq, Repr

inductive JsonFields where
  | nil : JsonFields
  | cons (key : String) (val : Json) (tl : JsonFields) : JsonFields
  deriving DecidableEq, Repr
end

def JsonList.toList : JsonList → List Json
  | .nil => []
  | .cons h t => h :: JsonList.toList t

def JsonFields.toList : JsonFields → List (String × Json)
  | .nil => []
  | .cons k v t => (k, v) :: JsonFields.toList t

/-- Property access `v.k` as the extractor uses it: defined on objects
(last binding wins, matching `JSON.parse` duplicate-key semantics composed
with JS property lookup); `undefined` (here `none`) on everything else. -/
def jsGetProp (v : Json) (key : String) : Option Json :=
  match v with
  | .obj fields => ((JsonFields.toList fields).filter (fun p => p.1 = key)).getLast?.map (·.2)
  | _ => none

/-- A JSON number lexeme denotes zero iff every digit of its integer and
fraction parts is `0` (the exponent cannot make a nonzero mantissa zero;
float underflow is not modelled). -/
def zeroNumLexeme (s : String) : Bool :=
  let mantissa := s.data.takeWhile (fun c => c ≠ 'e' ∧ c ≠ 'E')
  mantissa.all (fun c => ¬ c.isDigit ∨ c = '0')

/-- JavaScript truthiness of a parsed JSON value. -/
def jsTruthy : Json → Bool
  | .null => false
  | .bool b => b
  | .num lexeme => ¬ zeroNumLexeme lexeme
  | .str s => s ≠ ""
  | .arr _ => true
  | .obj _ => true

/-! ## `JSON.parse`

Recursive-descent parser for RFC 8259 JSON as implemented by `JSON.parse`:
JSON whitespace is exactly space/tab/LF/CR; strings are double-quoted with
the eight escapes and `\uXXXX` (surrogate pairs combined; a lone surrogate,
which Lean's `Char` cannot carry, is replaced by U+FFFD); unescaped control
characters below U+0020 are rejected; numbers follow the JSON grammar.
The whole input must be one value surrounded only by whitespace. -/

def jsonWs (c : Char) : Bool :=
  c = ' ' ∨ c = '\t' ∨ c = '\n' ∨ c = '\r'

def skipJsonWs : List Char → List Char
  | [] => []
  | c :: cs => if jsonWs c then skipJsonWs cs else c :: cs

def hexVal? (c : Char) : Option Nat :=
  if '0' ≤ c ∧ c ≤ '9' then some (c.toNat - '0'.toNat)
  else if 'a' ≤ c ∧ c ≤ 'f' then some (c.toNat - 'a'.toNat + 10)
  else if 'A' ≤ c ∧ c ≤ 'F' then some (c.toNat - 'A'.toNat + 10)
  else none

def hex4? (a b c d : Char) : Option Nat := do
  let va ← hexVal? a
  let vb ← hexVal? b
  let vc ← hexVal? c
  let vd ← hexVal? d
  pure (((va * 16 + vb) * 16 + vc) * 16 + vd)

/-- Make a `Char` from a scalar value, mapping non-scalars (lone surrogates)
to U+FFFD. -/
def charOfScalar (n : Nat) : Char :=
  if h : n.isValidChar then Char.ofNatAux n h else '�'

/-- Body of a JSON string after the opening quote; returns the decoded
string and the input after the closing quote. -/
def parseStringBody (fuel : Nat) (acc : List Char) (cs : List Char) :
    Option (String × List Char) :=
  match fuel with
  | 0 => none
  | fuel + 1 =>
    match cs with
    | [] => none
    | '"' :: rest => some (⟨acc.reverse⟩, rest)
    | '\\' :: esc =>
      match esc with
      | '"' :: rest => parseStringBody fuel ('"' :: acc) rest
      | '\\' :: rest => parseStringBody fuel ('\\' :: acc) rest
      | '/' :: rest => parseStringBody fuel ('/' :: acc) rest
      | 'b' :: rest => parseStringBody fuel ('\x08' :: acc) rest
      | 'f' :: rest => parseStringBody fuel ('\x0c' :: acc) rest
      | 'n' :: rest => parseStringBody fuel ('\n' :: acc) rest
      | 'r' :: rest => parseStringBody fuel ('\r' :: acc) rest
      | 't' :: rest => parseStringBody fuel ('\t' :: acc) rest
      | 'u' :: h1 :: h2 :: h3 :: h4 :: rest =>
        match hex4? h1 h2 h3 h4 with
        | none => none
        | some n =>
          if 0xD800 ≤ n ∧ n ≤ 0xDBFF then
            -- high surrogate: try to combine with a following \uXXXX low surrogate
            match rest with
            | '\\' :: 'u' :: g1 :: g2 :: g3 :: g4 :: rest2 =>
              match hex4? g1 g2 g3 g4 with
              | some m =>
                if 0xDC00 ≤ m ∧ m ≤ 0xDFFF then
                  parseStringBody fuel
                    (charOfScalar (0x10000 + (n - 0xD800) * 0x400 + (m - 0xDC00)) :: acc) rest2
                else parseStringBody fuel ('�' :: acc) rest
              | none => parseStringBody fuel ('�' :: acc) rest
            | _ => parseStringBody fuel ('�' :: acc) rest
          else if 0xDC00 ≤ n ∧ n ≤ 0xDFFF then
            parseStringBody fuel ('�' :: acc) rest
          else
            parseStringBody fuel (charOfScalar n :: acc) rest
      | _ => none
    | c :: rest =>
      if c.toNat < 0x20 then none
      else parseStringBody fuel (c :: acc) rest

/-- JSON number lexeme: `-? (0 | [1-9][0-9]*) (. [0-9]+)? ([eE][+-]?[0-9]+)?`. -/
def parseNumberLexeme (cs : List Char) : Option (String × List Char) :=
  let (sign, cs1) :=
    match cs with
    | '-' :: rest => (['-'], rest)
    | _ => (([] : List Char), cs)
  match cs1 with
  | [] => none
  | c :: rest =>
    if c = '0' then
      let (intPart, cs2) := (['0'], rest)
      parseNumberTail sign intPart cs2
    else if c.isDigit then
      let digits := cs1.takeWhile Char.isDigit
      let cs2 := cs1.dropWhile Char.isDigit
      parseNumberTail sign digits cs2
    else none
where
  parseNumberTail (sign intPart : List Char) (cs : List Char) :
      Option (String × List Char) :=
    let (fracPart, cs3) :=
      match cs with
      | '.' :: rest =>
        let ds := rest.takeWhile Char.isDigit
        if ds = [] then ([('\x00' : Char)], cs)  -- marker: invalid fraction
        else ('.' :: ds, rest.dropWhile Char.isDigit)
      | _ => (([] : List Char), cs)
    if fracPart = [('\x00' : Char)] then none
    else
      match cs3 with
      | e :: rest3 =>
        if e = 'e' ∨ e = 'E' then
          let (expSign, rest4) :=
            match rest3 with
            | '+' :: r => (['+'], r)
            | '-' :: r => (['-'], r)
            | _ => (([] : List Char), rest3)
          let ds := rest4.takeWhile Char.isDigit
          if ds = [] then none
          else some (⟨sign ++ intPart ++ fracPart ++ e :: expSign ++ ds⟩,
                     rest4.dropWhile Char.isDigit)
        else some (⟨sign ++ intPart ++ fracPart⟩, cs3)
      | [] => some (⟨sign ++ intPart ++ fracPart⟩, cs3)

/-- Append preserving textual order. -/
def appendJson (l : JsonList) (v : Json) : JsonList :=
  match l with
  | .nil => .cons v .nil
  | .cons h t => .cons h (appendJson t v)

def appendField (l : JsonFields) (k : String) (v : Json) : JsonFields :=
  match l with
  | .nil => .cons k v .nil
  | .cons k0 v0 t => .cons k0 v0 (appendField t k v)

mutual
/-- One JSON value starting at `cs` (no leading whitespace). -/
def parseVal (fuel : Nat) (cs : List Char) : Option (Json × List Char) :=
  match fuel with
  | 0 => none
  | fuel + 1 =>
    match cs with
    | [] => none
    | '{' :: rest => parseObjItems fuel (skipJsonWs rest) .nil true
    | '[' :: rest => parseArrItems fuel (skipJsonWs rest) .nil true
    | '"' :: rest =>
      match parseStringBody (rest.length + 1) [] rest with
      | some (s, rest2) => some (.str s, rest2)
      | none => none
    | 't' :: 'r' :: 'u' :: 'e' :: rest => some (.bool true, rest)
    | 'f' :: 'a' :: 'l' :: 's' :: 'e' :: rest => some (.bool false, rest)
    | 'n' :: 'u' :: 'l' :: 'l' :: rest => some (.null, rest)
    | _ =>
      match parseNumberLexeme cs with
      | some (lexeme, rest) => some (.num lexeme, rest)
      | none => none

/-- Array items after `[` and whitespace; `first` marks that no item has
been consumed yet (so `]` closes an empty array and no comma is expected). -/
def parseArrItems (fuel : Nat) (cs : List Char) (acc : JsonList) (first : Bool) :
    Option (Json × List Char) :=
  match fuel with
  | 0 => none
  | fuel + 1 =>
    match cs with
    | ']' :: rest =>
      if first then some (.arr .nil, rest) else none
    | _ =>
      match parseVal fuel cs with
      | none => none
      | some (v, rest) =>
        parseArrSep fuel (skipJsonWs rest) (appendJson acc v)

/-- After an array item: either `]` closes, or `,` continues. -/
def parseArrSep (fuel : Nat) (cs : List Char) (acc : JsonList) :
    Option (Json × List Char) :=
  match fuel with
  | 0 => none
  | fuel + 1 =>
    match cs with
    | ']' :: rest => some (.arr acc, rest)
    | ',' :: rest => parseArrItems fuel (skipJsonWs rest) acc false
    | _ => none

/-- Object members after `{` and whitespace. -/
def parseObjItems (fuel : Nat) (cs : List Char) (acc : JsonFields) (first : Bool) :
    Option (Json × List Char) :=
  match fuel with
  | 0 => none
  | fuel + 1 =>
    match cs with
    | '}' :: rest =>
      if first then some (.obj .nil, rest) else none
    | '"' :: rest =>
      match parseStringBody (rest.length + 1) [] rest with
      | none => none
      | some (key, rest2) =>
        match skipJsonWs rest2 with
        | ':' :: rest3 =>
          match parseVal fuel (skipJsonWs rest3) with
          | none => none
          | some (v, rest4) =>
            parseObjSep fuel (skipJsonWs rest4) (appendField acc key v)
        | _ => none
    | _ => none

/-- After an object member: either `}` closes, or `,` continues. -/
def parseObjSep (fuel : Nat) (cs : List Char) (acc : JsonFields) :
    Option (Json × List Char) :=
  match fuel with
  | 0 => none
  | fuel + 1 =>
    match cs with
    | '}' :: rest => some (.obj acc, rest)
    | ',' :: rest => parseObjItems fuel (skipJsonWs rest) acc false
    | _ => none
end

/-- `JSON.parse(s)`: one value, surrounded only by JSON whitespace. -/
def jsonParse (s : String) : Option Json :=
  match parseVal (2 * s.data.length + 8) (skipJsonWs s.data) with
  | some (v, rest) => if skipJsonWs rest = [] then some v else none
  | none => none

/-! ## Regex scanners

Each definition embeds one concrete regex of `extractToolsFromOutput`,
realising JavaScript leftmost / lazy / greedy semantics for that pattern
(each is deterministic for its pattern, as the bounded character classes
leave no residual backtracking). -/

/-- JavaScript `\s` (WhiteSpace ∪ LineTerminator). -/
def jsWhitespaceChar (c : Char) : Bool :=
  c = ' ' ∨ c = '\t' ∨ c = '\n' ∨ c = '\x0b' ∨ c = '\x0c' ∨ c = '\r' ∨
  c = ' ' ∨ c = ' ' ∨ (' ' ≤ c ∧ c ≤ ' ') ∨
  c = ' ' ∨ c = ' ' ∨ c = ' ' ∨ c = ' ' ∨
  c = '　' ∨ c = '﻿'

/-- JavaScript LineTerminator (what `.` does not match). -/
def lineTerminator (c : Char) : Bool :=
  c = '\n' ∨ c = '\r' ∨ c = ' ' ∨ c = ' '

def isQuoteChar (c : Char) : Bool := c = '"' ∨ c = '\''

def asciiLetter (c : Char) : Bool := ('a' ≤ c ∧ c ≤ 'z') ∨ ('A' ≤ c ∧ c ≤ 'Z')

/-- JavaScript `\w`. -/
def wordChar (c : Char) : Bool :=
  asciiLetter c ∨ ('0' ≤ c ∧ c ≤ '9') ∨ c = '_'

/-- Index of the first occurrence of `target`. -/
def idxOf? (target : Char) : List Char → Option Nat
  | [] => none
  | c :: cs => if c = target then some 0 else (idxOf? target cs).map (· + 1)

def startsWithChars : List Char → List Char → Bool
  | [], _ => true
  | _ :: _, [] => false
  | n :: ns, h :: hs => n = h ∧ startsWithChars ns hs

/-- `hay.includes(needle)` (substring containment). -/
def containsSub (needle : List Char) : List Char → Bool
  | [] => needle.isEmpty
  | h :: hs => startsWithChars needle (h :: hs) ∨ containsSub needle hs

/-- The subpattern `"jsonrpc"\s*:\s*"2.0"` (the `.` is the regex wildcard)
at the head of the input; returns the rest after the token. -/
def jsonrpcTokenAt (cs : List Char) : Option (List Char) :=
  match cs with
  | '"' :: 'j' :: 's' :: 'o' :: 'n' :: 'r' :: 'p' :: 'c' :: '"' :: rest =>
    match rest.dropWhile jsWhitespaceChar with
    | ':' :: rest2 =>
      match rest2.dropWhile jsWhitespaceChar with
      | '"' :: '2' :: c :: '0' :: '"' :: rest4 =>
        if lineTerminator c then none else some rest4
      | _ => none
    | _ => none
  | _ => none

/-- Earliest occurrence of the `"jsonrpc"..."2.0"` token: number of input
characters through the end of the token, and the rest. -/
def findJsonrpcToken : List Char → Option (Nat × List Char)
  | [] => none
  | c :: cs =>
    match jsonrpcTokenAt (c :: cs) with
    | some rest => some ((c :: cs).length - rest.length, rest)
    | none => (findJsonrpcToken cs).map (fun p => (p.1 + 1, p.2))

/-- One leftmost lazy match of `/\{[\s\S]*?"jsonrpc"\s*:\s*"2.0"[\s\S]*?\}/`:
first `{`, then the earliest token occurrence after it, then the earliest
`}` after the token.  Returns the matched substring and the rest of the
input after it (the `g`-flag continuation point). -/
def p0MatchOne (cs : List Char) : Option (String × List Char) := do
  let i ← idxOf? '{' cs
  let afterBrace := cs.drop (i + 1)
  let (k, restAfterTok) ← findJsonrpcToken afterBrace
  let j ← idxOf? '}' restAfterTok
  let matchedLen := 1 + k + j + 1
  some (⟨(cs.drop i).take matchedLen⟩, cs.drop (i + matchedLen))

def p0MatchesAux (fuel : Nat) (cs : List Char) : List String :=
  match fuel with
  | 0 => []
  | fuel + 1 =>
    match p0MatchOne cs with
    | none => []
    | some (m, rest) => m :: p0MatchesAux fuel rest

/-- `output.match(/\{[\s\S]*?"jsonrpc"\s*:\s*"2.0"[\s\S]*?\}/g)`. -/
def p0Matches (out : String) : List String :=
  p0MatchesAux (out.data.length + 1) out.data

/-- One leftmost lazy match of `/\{[\s\S]*?\}/`. -/
def p1MatchOne (cs : List Char) : Option (String × List Char) := do
  let i ← idxOf? '{' cs
  let j ← idxOf? '}' (cs.drop (i + 1))
  let matchedLen := 1 + j + 1
  some (⟨(cs.drop i).take matchedLen⟩, cs.drop (i + matchedLen))

def p1MatchesAux (fuel : Nat) (cs : List Char) : List String :=
  match fuel with
  | 0 => []
  | fuel + 1 =>
    match p1MatchOne cs with
    | none => []
    | some (m, rest) => m :: p1MatchesAux fuel rest

/-- `output.match(/\{[\s\S]*?\}/g)`. -/
def p1Matches (out : String) : List String :=
  p1MatchesAux (out.data.length + 1) out.data

/-- `name` case-insensitively at the head (regexes carry the `i` flag). -/
def nameCi (cs : List Char) : Option (List Char) :=
  match cs with
  | a :: b :: c :: d :: rest =>
    if a.toLower = 'n' ∧ b.toLower = 'a' ∧ c.toLower = 'm' ∧ d.toLower = 'e'
    then some rest else none
  | _ => none

/-- `function` case-insensitively at the head. -/
def functionCi (cs : List Char) : Option (List Char) :=
  match cs with
  | a :: b :: c :: d :: e :: f :: g :: h :: rest =>
    if a.toLower = 'f' ∧ b.toLower = 'u' ∧ c.toLower = 'n' ∧ d.toLower = 'c' ∧
       e.toLower = 't' ∧ f.toLower = 'i' ∧ g.toLower = 'o' ∧ h.toLower = 'n'
    then some rest else none
  | _ => none

/-- `/["']name["']\s*:\s*["']([^"']+)["']/i` anchored at the head:
the capture (greedy run of non-quote characters, closed by a quote). -/
def lineNameCaptureAt (cs : List Char) : Option String :=
  match cs with
  | q1 :: rest =>
    if isQuoteChar q1 then
      match nameCi rest with
      | none => none
      | some r1 =>
        match r1 with
        | q2 :: r2 =>
          if isQuoteChar q2 then
            match r2.dropWhile jsWhitespaceChar with
            | ':' :: r4 =>
              match (r4.dropWhile jsWhitespaceChar) with
              | q3 :: r6 =>
                if isQuoteChar q3 then
                  let capture := r6.takeWhile (fun c => ¬ isQuoteChar c)
                  let r7 := r6.dropWhile (fun c => ¬ isQuoteChar c)
                  if capture ≠ [] ∧ r7 ≠ [] then some ⟨capture⟩ else none
                else none
              | [] => none
            | _ => none
          else none
        | [] => none
    else none
  | [] => none

/-- First match of the line-scan regex in a line (`exec`, leftmost). -/
def lineNameCapture : List Char → Option String
  | [] => none
  | c :: cs =>
    match lineNameCaptureAt (c :: cs) with
    | some s => some s
    | none => lineNameCapture cs

/-- Optionally consume one quote character. -/
def skipOptQuote (cs : List Char) : List Char :=
  match cs with
  | q :: rest => if isQuoteChar q then rest else cs
  | [] => []

/-- `/["']?function["']?\s*:\s*["']?([a-zA-Z0-9_]+)["']?/i` anchored at the
head: consumed length and capture.  The optional quotes are forced when a
quote is present (declining them cannot make the rest match, since a quote
is neither whitespace, `:`, nor a word character). -/
def functionDeclAt (cs : List Char) : Option (Nat × String) :=
  let cs1 := skipOptQuote cs
  match functionCi cs1 with
  | none => none
  | some r1 =>
    let r2 := skipOptQuote r1
    match r2.dropWhile jsWhitespaceChar with
    | ':' :: r4 =>
      let r6 := skipOptQuote (r4.dropWhile jsWhitespaceChar)
      let capture := r6.takeWhile wordChar
      if capture = [] then none
      else
        let r8 := skipOptQuote (r6.dropWhile wordChar)
        some (cs.length - r8.length, ⟨capture⟩)
    | _ => none

/-- All captures of the global `function: value` regex, leftmost and
non-overlapping.  (The source collects full matches with `String.match`
and re-runs `exec` on each; re-running on a full match reproduces exactly
its capture, so the capture list is collected directly.) -/
def functionDecls (fuel : Nat) (cs : List Char) : List String :=
  match fuel with
  | 0 => []
  | fuel + 1 =>
    match cs with
    | [] => []
    | c :: rest =>
      match functionDeclAt (c :: rest) with
      | some (k, cap) => cap :: functionDecls fuel ((c :: rest).drop k)
      | none => functionDecls fuel rest

/-- `/["']?name["']?\s*:\s*["']?([^"',\n]+)["']?/i` anchored at the head:
consumed length and capture. -/
def nameValueAt (cs : List Char) : Option (Nat × String) :=
  let cs1 := skipOptQuote cs
  match nameCi cs1 with
  | none => none
  | some r1 =>
    let r2 := skipOptQuote r1
    match r2.dropWhile jsWhitespaceChar with
    | ':' :: r4 =>
      let r6 := skipOptQuote (r4.dropWhile jsWhitespaceChar)
      let notCap := fun c => isQuoteChar c ∨ c = ',' ∨ c = '\n'
      let capture := r6.takeWhile (fun c => ¬ notCap c)
      if capture = [] then none
      else
        let r8 := skipOptQuote (r6.dropWhile (fun c => ¬ notCap c))
        some (cs.length - r8.length, ⟨capture⟩)
    | _ => none

/-- The `while ((match = nameValueRegex.exec(output)) !== null)` loop:
push each capture not already present (`!tools.includes(match[1])`). -/
def nameValueScan (fuel : Nat) (cs : List Char) (acc : List Json) : List Json :=
  match fuel with
  | 0 => acc
  | fuel + 1 =>
    match cs with
    | [] => acc
    | c :: rest =>
      match nameValueAt (c :: rest) with
      | some (k, cap) =>
        let acc2 := if (Json.str cap) ∈ acc then acc else acc ++ [Json.str cap]
        nameValueScan fuel ((c :: rest).drop k) acc2
      | none => nameValueScan fuel rest acc

/-- Maximal runs of word characters (between `\b` boundaries). -/
def wordRuns (fuel : Nat) (cs : List Char) : List (List Char) :=
  match fuel with
  | 0 => []
  | fuel + 1 =>
    match cs with
    | [] => []
    | c :: rest =>
      if wordChar c then
        let run := (c :: rest).takeWhile wordChar
        run :: wordRuns fuel ((c :: rest).dropWhile wordChar)
      else wordRuns fuel rest

/-- An `_` immediately followed by an ASCII letter somewhere in the list. -/
def hasUnderscoreLetter : List Char → Bool
  | [] => false
  | '_' :: c :: rest => asciiLetter c ∨ hasUnderscoreLetter (c :: rest)
  | _ :: rest => hasUnderscoreLetter rest

/-- A maximal word run matches `\b([a-zA-Z]\w+_[a-zA-Z]\w*)\b` (as a whole,
which is the only way it can match) iff it starts with a letter and has an
`_` at index ≥ 2 followed by a letter; the capture is the whole run. -/
def p4RunOk (run : List Char) : Bool :=
  match run with
  | c0 :: _ :: rest => asciiLetter c0 ∧ hasUnderscoreLetter rest
  | _ => false

/-! ## The extraction chain `extractToolsFromOutput` -/

/-- `[...new Set(tools)]`: keep the first occurrence of each value. -/
def dedupSetAux (seen : List Json) : List Json → List Json
  | [] => []
  | x :: xs =>
    if x ∈ seen then dedupSetAux seen xs
    else x :: dedupSetAux (x :: seen) xs

def dedupSet (l : List Json) : List Json := dedupSetAux [] l

/-- The inner loop `for (const tool of …) if (tool && tool.name) push(tool.name)`
shared by the JSON-RPC and functions/tools branches. -/
def arrayNames (ts : JsonList) : List Json :=
  ts.toList.filterMap (fun tool =>
    if jsTruthy tool then
      match jsGetProp tool "name" with
      | some n => if jsTruthy n then some n else none
      | none => none
    else none)

/-- Check `v[key] && Array.isArray(v[key])`, push the array's names, and
return early (`Sum.inl`) when the accumulator is then non-empty. -/
def arrayBranch (acc : List Json) (v : Json) (key : String) :
    Sum (List Json) (List Json) :=
  match jsGetProp v key with
  | none => .inr acc
  | some f =>
    if jsTruthy f then
      match f with
      | .arr fs =>
        let acc2 := acc ++ arrayNames fs
        if acc2.length > 0 then .inl acc2 else .inr acc2
      | _ => .inr acc
    else .inr acc

/-- Pattern 0 body for one JSON-RPC candidate substring: parse, require a
truthy `result` with a `tools` array, collect names, return early when any
were collected. -/
def p0Step (acc : List Json) (m : String) : Sum (List Json) (List Json) :=
  match jsonParse m with
  | none => .inr acc
  | some j =>
    match jsGetProp j "result" with
    | none => .inr acc
    | some r => if jsTruthy r then arrayBranch acc r "tools" else .inr acc

/-- Pattern 1 body for one JSON candidate substring: `functions` array,
then `tools` array, then single object with a non-empty string `name`
(the last pushes without returning early). -/
def p1Step (acc : List Json) (m : String) : Sum (List Json) (List Json) :=
  match jsonParse m with
  | none => .inr acc
  | some j =>
    match arrayBranch acc j "functions" with
    | .inl r => .inl r
    | .inr acc1 =>
      match arrayBranch acc1 j "tools" with
      | .inl r => .inl r
      | .inr acc2 =>
        match jsGetProp j "name" with
        | some (.str s) => if s ≠ "" then .inr (acc2 ++ [.str s]) else .inr acc2
        | _ => .inr acc2

/-- Process candidates in order; `Sum.inl` aborts the whole extraction with
a raw (not deduplicated) result, mirroring the early `return tools`. -/
def foldEarly (step : List Json → String → Sum (List Json) (List Json)) :
    List String → List Json → Sum (List Json) (List Json)
  | [], acc => .inr acc
  | m :: ms, acc =>
    match step acc m with
    | .inl r => .inl r
    | .inr acc2 => foldEarly step ms acc2

/-- Pattern 2 body for one line: if the line contains `"name"` or `'name'`,
try `JSON.parse(line)` and push a truthy `name` property; only on a parse
failure fall back to the anchored name regex. -/
def p2LineStep (acc : List Json) (line : String) : List Json :=
  if containsSub "\"name\"".data line.data ∨ containsSub "'name'".data line.data then
    match jsonParse line with
    | some j =>
      match jsGetProp j "name" with
      | some n => if jsTruthy n then acc ++ [n] else acc
      | none => acc
    | none =>
      match lineNameCapture line.data with
      | some s => acc ++ [.str s]
      | none => acc
  else acc

/-- `output.split('\n')`: split at every newline, keeping empty pieces. -/
def splitOnNewline : List Char → List (List Char)
  | [] => [[]]
  | c :: rest =>
    if c = '\n' then [] :: splitOnNewline rest
    else
      match splitOnNewline rest with
      | l :: ls => (c :: l) :: ls
      | [] => [[c]]

/-- Pattern 2: `output.split('\n')` then the per-line scan. -/
def p2Collect (out : String) (acc : List Json) : List Json :=
  ((splitOnNewline out.data).map (fun l => (⟨l⟩ : String))).foldl p2LineStep acc

/-- Pattern 3: all `function: value` captures pushed unconditionally, then
the `name: value` loop with its membership test. -/
def p3Collect (out : String) (acc : List Json) : List Json :=
  let acc1 := acc ++ (functionDecls (out.data.length + 1) out.data).map Json.str
  nameValueScan (out.data.length + 1) out.data acc1

/-- Pattern 4: snake_case-like word runs, pushed with a membership test
(`toolName.includes('_')` holds for every matched run). -/
def p4Collect (out : String) (acc : List Json) : List Json :=
  (wordRuns (out.data.length + 1) out.data).foldl
    (fun a run =>
      if p4RunOk run then
        let name := Json.str ⟨run⟩
        if name ∈ a then a else a ++ [name]
      else a)
    acc

/-- `!output.trim()`: every character is removed by `String.trim`
(WhiteSpace ∪ LineTerminator). -/
def outputBlank (out : String) : Bool :=
  out.data.all (fun c => jsWhitespaceChar c ∨ lineTerminator c)

/-- `MCPToolDiscovery.extractToolsFromOutput`: the five strategies in
priority order.  Patterns 0 and 1 may return early with a raw accumulator;
patterns 2–4 are each guarded by `tools.length === 0`; only the final
fall-through return passes through `[...new Set(tools)]`. -/
def extractToolsFromOutput (out : String) : List Json :=
  if outputBlank out then []
  else
    match foldEarly p0Step (p0Matches out) [] with
    | .inl r => r
    | .inr acc0 =>
      match foldEarly p1Step (p1Matches out) acc0 with
      | .inl r => r
      | .inr acc1 =>
        let acc2 := if acc1.length = 0 then p2Collect out acc1 else acc1
        let acc3 := if acc2.length = 0 then p3Collect out acc2 else acc2
        let acc4 := if acc3.length = 0 then p4Collect out acc3 else acc3
        dedupSet acc4

/-! ## Launcher setup: merged environment and default arguments -/

/-- Association-list environment; later bindings override earlier ones. -/
def envLookup (e : List (String × String)) (k : String) : Option String :=
  ((e.filter (fun p => p.1 = k)).getLast?).map (·.2)

/-- The six fixed discovery-signal assignments, in source order. -/
def discoveryEnvVars : List (String × String) :=
  [("MCP_LIST_FUNCTIONS", "true"), ("MCP_DISCOVERY_MODE", "true"),
   ("MCP_REQUIRE_DESCRIPTIONS", "true"), ("MCP_LIST_TOOLS", "true"),
   ("FUNCTIONS_DISCOVERY", "true"), ("NODE_ENV", "discovery")]

/-- `{...process.env, ...env}` followed by the six assignments: as a lookup
structure, ambient entries, then caller `env` entries, then the six. -/
def buildProcessEnv (ambient env : List (String × String)) : List (String × String) :=
  (ambient ++ env) ++ discoveryEnvVars

/-- `let discoveryArgs = [...args]; if (args.length === 0) discoveryArgs = …`. -/
def discoveryArgs (args : List String) : List String :=
  if args.length = 0 then ["--list-functions", "--discovery"] else args

/-! ## The process session (`queryServerForTools`)

The subprocess is abstracted by a `SessionBehavior` (what the streams held
when each callback fired, the exit code, whether spawning failed) and a
schedule: the order in which the `close` handler, the `error` handler and
the `setTimeoutPromise` continuation actually run.  The promise settles at
most once (`settleOk`/`settleErr` are no-ops on a settled state), while the
handlers themselves always run in full — exactly the JavaScript semantics.
The 500 ms stdin write affects only the subprocess and a debug event, not
resolution, and is not modelled. -/

inductive SessionEvent where
  | closeEv : SessionEvent
  | errorEv : SessionEvent
  | timerEv : SessionEvent
  deriving DecidableEq, Repr

structure SessionBehavior where
  /-- `some msg` when spawning fails and the `error` event carries `msg`. -/
  spawnError : Option String
  /-- stdout accumulated when `close` fires. -/
  outAtClose : String
  /-- stderr accumulated when `close` fires. -/
  errAtClose : String
  /-- the `close` exit code (`none` models `null`, i.e. killed). -/
  closeCode : Option Int
  /-- stdout accumulated when the timer fires. -/
  outAtTimer : String
  deriving Repr

inductive DiagLevel where
  | info : DiagLevel
  | warning : DiagLevel
  | error : DiagLevel
  | debug : DiagLevel
  deriving DecidableEq, Repr

structure SessionState where
  /-- the promise: `none` pending, `some (.ok v)` resolved, `some (.error m)` rejected. -/
  settled : Option (Except String (List Json))
  /-- `childProcess.killed`: set only by our own `kill()` call. -/
  killed : Bool
  /-- number of `extractToolsFromOutput` invocations so far. -/
  extractCount : Nat
  diags : List (DiagLevel × String)
  deriving Repr

def initSession : SessionState := ⟨none, false, 0, []⟩

def settleOk (st : SessionState) (v : List Json) : SessionState :=
  if st.settled.isSome then st else { st with settled := some (.ok v) }

def settleErr (st : SessionState) (m : String) : SessionState :=
  if st.settled.isSome then st else { st with settled := some (.error m) }

/-- Diagnostics of the `close` handler head (the only place the exit code
is consulted). -/
def closeDiags (beh : SessionBehavior) : List (DiagLevel × String) :=
  match beh.closeCode with
  | some c =>
    if c ≠ 0 then
      (DiagLevel.warning, "Server process exited with code " ++ toString c) ::
        (if beh.errAtClose ≠ "" then [(DiagLevel.debug, "Error output: " ++ beh.errAtClose)] else [])
    else []
  | none => [(DiagLevel.debug, "Server process was terminated as expected")]

/-- The `close` handler: extract from stdout; if that is empty and stderr
is non-empty, extract from stderr and resolve with that when non-empty;
otherwise resolve with the stdout extraction. -/
def closeStep (beh : SessionBehavior) (st : SessionState) : SessionState :=
  let st1 := { st with diags := st.diags ++ closeDiags beh }
  let tools := extractToolsFromOutput beh.outAtClose
  let st2 := { st1 with extractCount := st1.extractCount + 1 }
  if tools.length = 0 ∧ beh.errAtClose ≠ "" then
    let errorTools := extractToolsFromOutput beh.errAtClose
    let st3 := { st2 with extractCount := st2.extractCount + 1 }
    if errorTools.length > 0 then
      settleOk { st3 with diags := st3.diags ++ [(DiagLevel.debug, "Found tools in stderr output")] }
        errorTools
    else settleOk st3 tools
  else settleOk st2 tools

/-- The `error` handler: reject (a no-op when already settled). -/
def errorStep (beh : SessionBehavior) (st : SessionState) : SessionState :=
  match beh.spawnError with
  | some m => settleErr st ("Failed to execute command: " ++ m)
  | none => st

/-- The timer continuation: `if (!childProcess.killed) { kill; extract; resolve }`.
Killing an already-exited process is a no-op on the state; the resolve is a
no-op when the close handler already settled — but the extraction still runs. -/
def timerStep (beh : SessionBehavior) (st : SessionState) : SessionState :=
  if st.killed then st
  else
    let st1 := { st with
      killed := true
      diags := st.diags ++ [(DiagLevel.info, "Completed discovery - terminated server process")] }
    let tools := extractToolsFromOutput beh.outAtTimer
    settleOk { st1 with extractCount := st1.extractCount + 1 } tools

def sessionStep (beh : SessionBehavior) (st : SessionState) : SessionEvent → SessionState
  | .closeEv => closeStep beh st
  | .errorEv => errorStep beh st
  | .timerEv => timerStep beh st

/-- Run `queryServerForTools`'s callbacks in schedule order. -/
def runSession (beh : SessionBehavior) (sched : List SessionEvent) : SessionState :=
  sched.foldl (sessionStep beh) initSession

/-! ## Cache and `discoverTools` -/

abbrev Cache := List (String × List Json)

def cacheGet (c : Cache) (serverId : String) : Option (List Json) :=
  ((c.filter (fun p => p.1 = serverId)).getLast?).map (·.2)

def cacheSet (c : Cache) (serverId : String) (v : List Json) : Cache :=
  c.filter (fun p => p.1 ≠ serverId) ++ [(serverId, v)]

/-- `clearCache()`. -/
def clearCache (_ : Cache) : Cache := []

structure ServerConfig where
  command : Option String
  args : Option (List String)
  env : Option (List (String × String))
  deriving Repr

/-- `if (!command)`: absent or empty command string is falsy. -/
def commandFalsy : Option String → Bool
  | none => true
  | some c => c = ""

structure SpawnCall where
  command : String
  args : List String
  env : List (String × String)
  deriving DecidableEq, Repr

structure DiscoverOutcome where
  tools : List Json
  cache : Cache
  diags : List (DiagLevel × String)
  spawnCalls : List SpawnCall
  deriving DecidableEq, Repr

/-- `MCPToolDiscovery.discoverTools(serverId, serverConfig)`.

`ambient` is `process.env`; `beh`/`sched` describe the subprocess and the
order its callbacks run.  The result is `none` exactly when the promise
never settles (the call never returns to its caller); a `some` outcome is a
normal (non-throwing) return — the `try/catch` of the source maps a missing
command and a session rejection to an empty result plus an error diagnostic
and leaves the cache unchanged.  Diagnostic messages interpolating values
that the claims do not inspect are abbreviated. -/
def discoverTools (ambient : List (String × String)) (cache : Cache) (serverId : String)
    (cfg : ServerConfig) (beh : SessionBehavior) (sched : List SessionEvent) :
    Option DiscoverOutcome :=
  match cacheGet cache serverId with
  | some tools =>
    some ⟨tools, cache, [(DiagLevel.debug, "Using cached tools for " ++ serverId)], []⟩
  | none =>
    let baseDiags := [(DiagLevel.info, "Discovering tools for " ++ serverId)]
    let args := cfg.args.getD []
    if commandFalsy cfg.command then
      some ⟨[], cache,
        baseDiags ++ [(DiagLevel.error, "Failed to discover tools for " ++ serverId ++
          ": No command defined for server " ++ serverId)], []⟩
    else
      let cmd := cfg.command.getD ""
      let call : SpawnCall :=
        ⟨cmd, discoveryArgs args, buildProcessEnv ambient (cfg.env.getD [])⟩
      let preSpawn := baseDiags ++ [(DiagLevel.debug, "Running command")]
      let st := runSession beh sched
      match st.settled with
      | none => none
      | some (.error msg) =>
        some ⟨[], cache, preSpawn ++ st.diags ++
          [(DiagLevel.error, "Failed to discover tools for " ++ serverId ++ ": " ++ msg)], [call]⟩
      | some (.ok tools) =>
        some ⟨tools, cacheSet cache serverId tools,
          preSpawn ++ st.diags ++ [(DiagLevel.debug, "Discovered tools for " ++ serverId)], [call]⟩

/-! ## Session lemmas -/

theorem settleOk_of_settled (st : SessionState) (v : List Json) (w : Except String (List Json))
    (h : st.settled = some w) : (settleOk st v).settled = some w := by
  simp [settleOk, h]

theorem settleErr_of_settled (st : SessionState) (m : String) (w : Except String (List Json))
    (h : st.settled = some w) : (settleErr st m).settled = some w := by
  simp [settleErr, h]

/-- A settled promise can never change value: every handler's resolve and
reject is a no-op once the session is settled. -/
theorem sessionStep_settled_mono (beh : SessionBehavior) (st : SessionState) (e : SessionEvent)
    (v : Except String (List Json)) (h : st.settled = some v) :
    (sessionStep beh st e).settled = some v := by
  cases e with
  | closeEv =>
    simp only [sessionStep, closeStep]
    split
    · split
      · exact settleOk_of_settled _ _ _ h
      · exact settleOk_of_settled _ _ _ h
    · exact settleOk_of_settled _ _ _ h
  | errorEv =>
    simp only [sessionStep, errorStep]
    cases hbeh : beh.spawnError with
    | some m => exact settleErr_of_settled _ _ _ h
    | none => exact h
  | timerEv =>
    simp only [sessionStep, timerStep]
    split
    · exact h
    · exact settleOk_of_settled _ _ _ h

theorem foldl_settled_mono (beh : SessionBehavior) (sched : List SessionEvent)
    (st : SessionState) (v : Except String (List Json)) (h : st.settled = some v) :
    (sched.foldl (sessionStep beh) st).settled = some v := by
  induction sched generalizing st with
  | nil => exact h
  | cons e rest ih => exact ih _ (sessionStep_settled_mono beh st e v h)

theorem runSession_append (beh : SessionBehavior) (s1 s2 : List SessionEvent) :
    runSession beh (s1 ++ s2) = s2.foldl (sessionStep beh) (runSession beh s1) := by
  simp [runSession, List.foldl_append]

theorem sessionStep_isSome (beh : SessionBehavior) (st : SessionState) (e : SessionEvent)
    (h : st.settled.isSome) : (sessionStep beh st e).settled.isSome := by
  obtain ⟨v, hv⟩ := Option.isSome_iff_exists.mp h
  simp [sessionStep_settled_mono beh st e v hv]

/-- `killed` is set only by the timer path, which also settles. -/
theorem sessionStep_killed_inv (beh : SessionBehavior) (st : SessionState) (e : SessionEvent)
    (h : st.killed = true → st.settled.isSome) :
    (sessionStep beh st e).killed = true → (sessionStep beh st e).settled.isSome := by
  cases e with
  | closeEv =>
    intro hk
    have hk0 : st.killed = true := by
      revert hk
      simp only [sessionStep, closeStep, settleOk]
      split
      · split <;> (split <;> (intro hk; simpa using hk))
      · split <;> (intro hk; simpa using hk)
    rcases Option.isSome_iff_exists.mp (h hk0) with ⟨v, hv⟩
    simp [sessionStep_settled_mono beh st .closeEv v hv]
  | errorEv =>
    intro hk
    have hk0 : st.killed = true := by
      revert hk
      simp only [sessionStep, errorStep, settleErr]
      cases beh.spawnError <;> simp <;> split <;> simp
    rcases Option.isSome_iff_exists.mp (h hk0) with ⟨v, hv⟩
    simp [sessionStep_settled_mono beh st .errorEv v hv]
  | timerEv =>
    simp only [sessionStep, timerStep]
    split
    · intro hk; exact h hk
    · intro _
      simp only [settleOk]
      split
      · assumption
      · simp

/-- The timer continuation always leaves the session settled. -/
theorem timerStep_settles (beh : SessionBehavior) (st : SessionState)
    (h : st.killed = true → st.settled.isSome) :
    (sessionStep beh st .timerEv).settled.isSome := by
  simp only [sessionStep, timerStep]
  split
  · exact h (by assumption)
  · simp only [settleOk]
    split
    · assumption
    · simp

theorem foldl_settles_aux (beh : SessionBehavior) (sched : List SessionEvent) :
    ∀ st : SessionState, (st.killed = true → st.settled.isSome) →
      SessionEvent.timerEv ∈ sched →
      ((sched.foldl (sessionStep beh) st).settled.isSome) := by
  induction sched with
  | nil => intro st _ hmem; cases hmem
  | cons e rest ih =>
    intro st hinv hmem
    rcases List.mem_cons.mp hmem with he | hrest
    · subst he
      have h1 : (sessionStep beh st .timerEv).settled.isSome := timerStep_settles beh st hinv
      obtain ⟨v, hv⟩ := Option.isSome_iff_exists.mp h1
      simpa [List.foldl_cons] using
        Option.isSome_iff_exists.mpr ⟨v, foldl_settled_mono beh rest _ v hv⟩
    · exact ih _ (sessionStep_killed_inv beh st e hinv) hrest

/-- With the timer in the schedule (it is never cancelled), the session
always settles: no discovery call can hang forever. -/
theorem runSession_settles (beh : SessionBehavior) (sched : List SessionEvent)
    (h : SessionEvent.timerEv ∈ sched) : (runSession beh sched).settled.isSome :=
  foldl_settles_aux beh sched initSession (by simp [initSession]) h

/-- When spawning succeeds, no handler ever rejects. -/
theorem sessionStep_no_error (beh : SessionBehavior) (st : SessionState) (e : SessionEvent)
    (hbeh : beh.spawnError = none)
    (h : ∀ m, st.settled ≠ some (Except.error m)) :
    ∀ m, (sessionStep beh st e).settled ≠ some (Except.error m) := by
  have hok : ∀ (st' : SessionState) (v : List Json),
      (∀ m, st'.settled ≠ some (Except.error m)) →
      ∀ m, (settleOk st' v).settled ≠ some (Except.error m) := by
    intro st' v h' m
    simp only [settleOk]
    split
    · exact h' m
    · simp
  cases e with
  | closeEv =>
    simp only [sessionStep, closeStep]
    split
    · split
      · exact hok _ _ (fun m => h m)
      · exact hok _ _ (fun m => h m)
    · exact hok _ _ (fun m => h m)
  | errorEv =>
    simp only [sessionStep, errorStep, hbeh]
    exact h
  | timerEv =>
    simp only [sessionStep, timerStep]
    split
    · exact h
    · exact hok _ _ (fun m => h m)

theorem runSession_no_error (beh : SessionBehavior) (sched : List SessionEvent)
    (hbeh : beh.spawnError = none) :
    ∀ m, (runSession beh sched).settled ≠ some (Except.error m) := by
  suffices h : ∀ st : SessionState, (∀ m, st.settled ≠ some (Except.error m)) →
      ∀ m, ((sched.foldl (sessionStep beh) st).settled ≠ some (Except.error m)) by
    exact h initSession (by simp [initSession])
  induction sched with
  | nil => intro st h; exact h
  | cons e rest ih => intro st h; exact ih _ (sessionStep_no_error beh st e hbeh h)

/-- A successful spawn plus the uncancellable timer: the session resolves
with a (possibly empty) tools list. -/
theorem runSession_resolves_ok (beh : SessionBehavior) (sched : List SessionEvent)
    (hbeh : beh.spawnError = none) (ht : SessionEvent.timerEv ∈ sched) :
    ∃ ts, (runSession beh sched).settled = some (Except.ok ts) := by
  obtain ⟨v, hv⟩ := Option.isSome_iff_exists.mp (runSession_settles beh sched ht)
  cases v with
  | ok ts => exact ⟨ts, hv⟩
  | error m => exact absurd hv (runSession_no_error beh sched hbeh m)

/-! ## Cache lemmas -/

theorem cacheGet_cacheSet_same (c : Cache) (serverId : String) (v : List Json) :
    cacheGet (cacheSet c serverId v) serverId = some v := by
  have hfilter : (c.filter (fun p => p.1 ≠ serverId)).filter (fun p => p.1 = serverId) = [] := by
    induction c with
    | nil => rfl
    | cons p rest ih =>
      by_cases hp : p.1 = serverId
      · simp [List.filter_cons, hp, ih]
      · simp [List.filter_cons, hp, ih]
  simp [cacheGet, cacheSet, List.filter_append, hfilter]

/-! ## Exit-code independence

The exit code reaches only `closeDiags`; the settled value, the kill flag
and the extraction count of a session are unaffected by it. -/

theorem sessionStep_code_indep (beh : SessionBehavior) (c1 c2 : Option Int)
    (st1 st2 : SessionState) (e : SessionEvent)
    (hs : st1.settled = st2.settled) (hk : st1.killed = st2.killed)
    (hn : st1.extractCount = st2.extractCount) :
    (sessionStep { beh with closeCode := c1 } st1 e).settled =
      (sessionStep { beh with closeCode := c2 } st2 e).settled ∧
    (sessionStep { beh with closeCode := c1 } st1 e).killed =
      (sessionStep { beh with closeCode := c2 } st2 e).killed ∧
    (sessionStep { beh with closeCode := c1 } st1 e).extractCount =
      (sessionStep { beh with closeCode := c2 } st2 e).extractCount := by
  obtain ⟨s1, k1, n1, d1⟩ := st1
  obtain ⟨s2, k2, n2, d2⟩ := st2
  have hs' : s1 = s2 := hs
  have hk' : k1 = k2 := hk
  have hn' : n1 = n2 := hn
  subst hs'; subst hk'; subst hn'
  cases e with
  | closeEv =>
    simp only [sessionStep, closeStep, settleOk]
    cases s1 <;> (split <;> (try split)) <;> simp_all
  | errorEv =>
    simp only [sessionStep, errorStep, settleErr]
    cases beh.spawnError <;> cases s1 <;> simp_all
  | timerEv =>
    simp only [sessionStep, timerStep, settleOk]
    cases s1 <;> split <;> simp_all

theorem runSession_code_indep (beh : SessionBehavior) (c1 c2 : Option Int)
    (sched : List SessionEvent) :
    (runSession { beh with closeCode := c1 } sched).settled =
      (runSession { beh with closeCode := c2 } sched).settled ∧
    (runSession { beh with closeCode := c1 } sched).killed =
      (runSession { beh with closeCode := c2 } sched).killed ∧
    (runSession { beh with closeCode := c1 } sched).extractCount =
      (runSession { beh with closeCode := c2 } sched).extractCount := by
  suffices h : ∀ (st1 st2 : SessionState),
      st1.settled = st2.settled → st1.killed = st2.killed →
      st1.extractCount = st2.extractCount →
      (sched.foldl (sessionStep { beh with closeCode := c1 }) st1).settled =
        (sched.foldl (sessionStep { beh with closeCode := c2 }) st2).settled ∧
      (sched.foldl (sessionStep { beh with closeCode := c1 }) st1).killed =
        (sched.foldl (sessionStep { beh with closeCode := c2 }) st2).killed ∧
      (sched.foldl (sessionStep { beh with closeCode := c1 }) st1).extractCount =
        (sched.foldl (sessionStep { beh with closeCode := c2 }) st2).extractCount by
    exact h initSession initSession rfl rfl rfl
  induction sched with
  | nil => intro st1 st2 hs hk hn; exact ⟨hs, hk, hn⟩
  | cons e rest ih =>
    intro st1 st2 hs hk hn
    obtain ⟨hs', hk', hn'⟩ := sessionStep_code_indep beh c1 c2 st1 st2 e hs hk hn
    exact ih _ _ hs' hk' hn'

/-! ## Deduplication lemmas -/

theorem dedupSetAux_nodup (l : List Json) :
    ∀ seen : List Json, (dedupSetAux seen l).Nodup ∧
      ∀ x ∈ dedupSetAux seen l, x ∉ seen := by
  induction l with
  | nil => intro seen; simp [dedupSetAux]
  | cons x xs ih =>
    intro seen
    by_cases hx : x ∈ seen
    · simpa [dedupSetAux, hx] using ih seen
    · obtain ⟨hnd, hni⟩ := ih (x :: seen)
      refine ⟨?_, ?_⟩
      · simp only [dedupSetAux, hx, if_false, List.nodup_cons]
        exact ⟨fun hmem => (hni x hmem) (by simp), hnd⟩
      · intro y hy
        simp only [dedupSetAux, hx, if_false, List.mem_cons] at hy
        rcases hy with rfl | hy
        · exact hx
        · intro hys; exact (hni y hy) (by simp [hys])

theorem dedupSet_nodup (l : List Json) : (dedupSet l).Nodup :=
  (dedupSetAux_nodup l []).1

/-! ## Environment lookup lemmas -/

theorem getLast?_append_orElse {α : Type} (x y : List α) :
    (x ++ y).getLast? = (y.getLast?).orElse (fun _ => x.getLast?) := by
  cases y with
  | nil => simp [Option.orElse]
  | cons b bs =>
    rw [List.getLast?_append_cons]
    obtain ⟨v, hv⟩ := Option.isSome_iff_exists.mp
      ((List.getLast?_isSome (l := b :: bs)).mpr (by simp))
    simp [hv, Option.orElse]

theorem envLookup_append (a b : List (String × String)) (k : String) :
    envLookup (a ++ b) k = (envLookup b k).orElse (fun _ => envLookup a k) := by
  simp only [envLookup, List.filter_append, getLast?_append_orElse]
  cases hb : ((b.filter (fun p => p.1 = k)).getLast?) <;> simp [hb, Option.orElse]

theorem cacheGet_nil (serverId : String) : cacheGet [] serverId = none := rfl

/-! ## Claim theorems -/

/-- C1: for every serverId and serverConfig — including an absent or
unexecutable command, a process that dies, and a server that emits nothing —
`discoverTools` resolves normally with a (possibly empty) list of names and
never throws or rejects to its caller: the missing-command throw and the
spawn-failure rejection are absorbed by the `try/catch`, and the
uncancellable timer settles the session, so the call cannot hang (`none`). -/
theorem discoverTools_never_throws (ambient : List (String × String)) (cache : Cache)
    (serverId : String) (cfg : ServerConfig) (beh : SessionBehavior)
    (sched : List SessionEvent) (ht : SessionEvent.timerEv ∈ sched) :
    (discoverTools ambient cache serverId cfg beh sched).isSome := by
  simp only [discoverTools]
  cases hc : cacheGet cache serverId with
  | some tools => simp
  | none =>
    by_cases hcmd : commandFalsy cfg.command
    · simp [hcmd]
    · obtain ⟨v, hv⟩ := Option.isSome_iff_exists.mp (runSession_settles beh sched ht)
      cases v <;> simp [hcmd, hv]

/-- Witness for C1: a concrete call whose spawn fails still returns. -/
theorem discoverTools_never_throws_witness :
    SessionEvent.timerEv ∈ [SessionEvent.errorEv, SessionEvent.timerEv] ∧
    (discoverTools [] [] "srv" ⟨some "bad-cmd", none, none⟩
      ⟨some "ENOENT", "", "", none, ""⟩
      [SessionEvent.errorEv, SessionEvent.timerEv]).isSome :=
  ⟨by decide,
   discoverTools_never_throws [] [] "srv" ⟨some "bad-cmd", none, none⟩
     ⟨some "ENOENT", "", "", none, ""⟩
     [SessionEvent.errorEv, SessionEvent.timerEv] (by decide)⟩

/-- C10: the returned name list and the cache state are independent of the
exit code reported at process close (zero, non-zero, or null after a kill);
the exit code reaches only the emitted diagnostics. -/
theorem discovery_exit_code_independent (ambient : List (String × String)) (cache : Cache)
    (serverId : String) (cfg : ServerConfig) (beh : SessionBehavior) (c1 c2 : Option Int)
    (sched : List SessionEvent) :
    (discoverTools ambient cache serverId cfg { beh with closeCode := c1 } sched).map
        (fun o => (o.tools, o.cache)) =
      (discoverTools ambient cache serverId cfg { beh with closeCode := c2 } sched).map
        (fun o => (o.tools, o.cache)) := by
  obtain ⟨hs, -, -⟩ := runSession_code_indep beh c1 c2 sched
  simp only [discoverTools]
  cases hc : cacheGet cache serverId with
  | some tools => simp
  | none =>
    by_cases hcmd : commandFalsy cfg.command
    · simp [hcmd]
    · cases hv : (runSession { beh with closeCode := c1 } sched).settled with
      | none => rw [hv] at hs; simp [hcmd, hv, ← hs]
      | some v => rw [hv] at hs; cases v <;> simp [hcmd, hv, ← hs]

theorem envLookup_buildProcessEnv_fixed (ambient env : List (String × String))
    (k v : String) (h : envLookup discoveryEnvVars k = some v) :
    envLookup (buildProcessEnv ambient env) k = some v := by
  unfold buildProcessEnv
  rw [envLookup_append, h]
  rfl

/-- C9: the spawned environment is the ambient environment overridden by the
caller's `env`, further overridden by the six fixed discovery variables; the
argument list is the caller's `args` when non-empty and exactly
`["--list-functions", "--discovery"]` otherwise. -/
theorem launcher_env_args_contract :
    (∀ ambient env, envLookup (buildProcessEnv ambient env) "MCP_LIST_FUNCTIONS" = some "true") ∧
    (∀ ambient env, envLookup (buildProcessEnv ambient env) "MCP_DISCOVERY_MODE" = some "true") ∧
    (∀ ambient env, envLookup (buildProcessEnv ambient env) "MCP_REQUIRE_DESCRIPTIONS" = some "true") ∧
    (∀ ambient env, envLookup (buildProcessEnv ambient env) "MCP_LIST_TOOLS" = some "true") ∧
    (∀ ambient env, envLookup (buildProcessEnv ambient env) "FUNCTIONS_DISCOVERY" = some "true") ∧
    (∀ ambient env, envLookup (buildProcessEnv ambient env) "NODE_ENV" = some "discovery") ∧
    (∀ ambient env k, envLookup discoveryEnvVars k = none →
      envLookup (buildProcessEnv ambient env) k =
        (envLookup env k).orElse (fun _ => envLookup ambient k)) ∧
    (∀ args : List String, args ≠ [] → discoveryArgs args = args) ∧
    discoveryArgs [] = ["--list-functions", "--discovery"] := by
  refine ⟨?_, ?_, ?_, ?_, ?_, ?_, ?_, ?_, ?_⟩
  · exact fun ambient env => envLookup_buildProcessEnv_fixed ambient env _ _ (by decide)
  · exact fun ambient env => envLookup_buildProcessEnv_fixed ambient env _ _ (by decide)
  · exact fun ambient env => envLookup_buildProcessEnv_fixed ambient env _ _ (by decide)
  · exact fun ambient env => envLookup_buildProcessEnv_fixed ambient env _ _ (by decide)
  · exact fun ambient env => envLookup_buildProcessEnv_fixed ambient env _ _ (by decide)
  · exact fun ambient env => envLookup_buildProcessEnv_fixed ambient env _ _ (by decide)
  · intro ambient env k h
    unfold buildProcessEnv
    rw [envLookup_append, h, envLookup_append]
    rfl
  · intro args h
    simp [discoveryArgs, h]
  · rfl

/-- Witness for C9: concrete lookups through the merged environment and the
two argument cases. -/
theorem launcher_env_args_contract_witness :
    envLookup (buildProcessEnv [("PATH", "p"), ("NODE_ENV", "prod")] [("API_KEY", "k")])
      "NODE_ENV" = some "discovery" ∧
    envLookup discoveryEnvVars "PATH" = none ∧
    envLookup (buildProcessEnv [("PATH", "p"), ("NODE_ENV", "prod")] [("API_KEY", "k")])
      "PATH" = some "p" ∧
    discoveryArgs ["run"] = ["run"] ∧
    discoveryArgs [] = ["--list-functions", "--discovery"] := by
  refine ⟨launcher_env_args_contract.2.2.2.2.2.1 _ _, by decide, ?_, ?_,
    launcher_env_args_contract.2.2.2.2.2.2.2.2⟩
  · have h := launcher_env_args_contract.2.2.2.2.2.2.1
      [("PATH", "p"), ("NODE_ENV", "prod")] [("API_KEY", "k")] "PATH" (by decide)
    rw [h]; rfl
  · exact launcher_env_args_contract.2.2.2.2.2.2.2.1 ["run"] (by decide)

/-- C7: when spawning fails (the `error` event fires first and rejects the
session), `discoverTools` emits the error diagnostic, returns an empty
result, and leaves the cache unchanged — no entry is created, so the next
call probes again; whereas every call whose session resolves (extraction
completed, even with an empty result) writes a cache entry equal to the
returned result. -/
theorem spawn_failure_uncached_completion_cached :
    (∀ (ambient : List (String × String)) (cache : Cache) (serverId : String)
        (cfg : ServerConfig) (beh : SessionBehavior) (rest : List SessionEvent) (m : String),
      cacheGet cache serverId = none →
      commandFalsy cfg.command = false →
      beh.spawnError = some m →
      (discoverTools ambient cache serverId cfg beh (SessionEvent.errorEv :: rest)).map
          (fun o => (o.tools, o.cache,
            decide ((DiagLevel.error, "Failed to discover tools for " ++ serverId ++
              ": " ++ ("Failed to execute command: " ++ m)) ∈ o.diags))) =
        some ([], cache, true)) ∧
    (∀ (ambient : List (String × String)) (cache : Cache) (serverId : String)
        (cfg : ServerConfig) (beh : SessionBehavior) (sched : List SessionEvent),
      cacheGet cache serverId = none →
      commandFalsy cfg.command = false →
      beh.spawnError = none →
      SessionEvent.timerEv ∈ sched →
      (discoverTools ambient cache serverId cfg beh sched).isSome ∧
      ((discoverTools ambient cache serverId cfg beh sched).bind
          (fun o => cacheGet o.cache serverId)) =
        (discoverTools ambient cache serverId cfg beh sched).map (fun o => o.tools)) := by
  constructor
  · intro ambient cache serverId cfg beh rest m hc hcmd hbeh
    have h1 : (sessionStep beh initSession .errorEv).settled =
        some (Except.error ("Failed to execute command: " ++ m)) := by
      simp [sessionStep, errorStep, hbeh, settleErr, initSession]
    have hsettle : (runSession beh (SessionEvent.errorEv :: rest)).settled =
        some (Except.error ("Failed to execute command: " ++ m)) := by
      simpa [runSession, List.foldl_cons] using
        foldl_settled_mono beh rest (sessionStep beh initSession .errorEv) _ h1
    simp [discoverTools, hc, hcmd, hsettle]
  · intro ambient cache serverId cfg beh sched hc hcmd hbeh ht
    obtain ⟨ts, hts⟩ := runSession_resolves_ok beh sched hbeh ht
    simp [discoverTools, hc, hcmd, hts, cacheGet_cacheSet_same]

/-- Witness for C7: a concrete failing spawn is not cached; a concrete call
resolving with an empty result is cached. -/
theorem spawn_failure_uncached_completion_cached_witness :
    ((discoverTools [] [] "s7" (ServerConfig.mk (some "nope") none none)
        (SessionBehavior.mk (some "spawn nope ENOENT") "" "" none "")
        (SessionEvent.errorEv :: [SessionEvent.timerEv])).map
      (fun o => (o.tools, o.cache,
        decide ((DiagLevel.error, "Failed to discover tools for " ++ "s7" ++
          ": " ++ ("Failed to execute command: " ++ "spawn nope ENOENT")) ∈ o.diags)))) =
      some ([], [], true) ∧
    (discoverTools [] [] "s7b" (ServerConfig.mk (some "quiet") none none)
        (SessionBehavior.mk none "" "" (some 0) "")
        [SessionEvent.closeEv, SessionEvent.timerEv]).isSome ∧
    ((discoverTools [] [] "s7b" (ServerConfig.mk (some "quiet") none none)
        (SessionBehavior.mk none "" "" (some 0) "")
        [SessionEvent.closeEv, SessionEvent.timerEv]).bind
      (fun o => cacheGet o.cache "s7b")) =
      (discoverTools [] [] "s7b" (ServerConfig.mk (some "quiet") none none)
        (SessionBehavior.mk none "" "" (some 0) "")
        [SessionEvent.closeEv, SessionEvent.timerEv]).map
        (fun o => o.tools) := by
  refine ⟨spawn_failure_uncached_completion_cached.1 [] [] "s7"
      (ServerConfig.mk (some "nope") none none)
      (SessionBehavior.mk (some "spawn nope ENOENT") "" "" none "")
      [SessionEvent.timerEv] "spawn nope ENOENT" rfl rfl rfl, ?_, ?_⟩
  · exact (spawn_failure_uncached_completion_cached.2 [] [] "s7b"
      (ServerConfig.mk (some "quiet") none none)
      (SessionBehavior.mk none "" "" (some 0) "")
      [SessionEvent.closeEv, SessionEvent.timerEv] rfl rfl rfl (by decide)).1
  · exact (spawn_failure_uncached_completion_cached.2 [] [] "s7b"
      (ServerConfig.mk (some "quiet") none none)
      (SessionBehavior.mk none "" "" (some 0) "")
      [SessionEvent.closeEv, SessionEvent.timerEv] rfl rfl rfl (by decide)).2

/-- C3 (amended): resolution is unique and idempotent — the first completion
path to fire fixes the session's value, and every later handler run
(including the un-cancelled timer's kill of an already-exited process and
its re-resolution, and the close event after a timeout kill) leaves it
unchanged.  The original claim's "extraction runs exactly once" does not
hold: the losing path also runs extraction, with its result discarded. -/
theorem session_resolution_unique (beh : SessionBehavior) (s1 s2 : List SessionEvent)
    (v : Except String (List Json)) (h : (runSession beh s1).settled = some v) :
    (runSession beh (s1 ++ s2)).settled = some v := by
  rw [runSession_append]
  exact foldl_settled_mono beh s2 _ v h

set_option maxRecDepth 10000 in
/-- Witness for C3: a session resolved by the close handler keeps its value
when the timer later fires (killing the already-exited process is a no-op). -/
theorem session_resolution_unique_witness :
    (runSession (SessionBehavior.mk none "\x7b\"name\":\"w3_tool\"\x7d" "" (some 0) "")
        [SessionEvent.closeEv]).settled = some (Except.ok [Json.str "w3_tool"]) ∧
    (runSession (SessionBehavior.mk none "\x7b\"name\":\"w3_tool\"\x7d" "" (some 0) "")
        ([SessionEvent.closeEv] ++ [SessionEvent.timerEv])).settled =
      some (Except.ok [Json.str "w3_tool"]) :=
  ⟨rfl,
   session_resolution_unique (SessionBehavior.mk none "\x7b\"name\":\"w3_tool\"\x7d" "" (some 0) "")
     [SessionEvent.closeEv] [SessionEvent.timerEv] (Except.ok [Json.str "w3_tool"]) rfl⟩

set_option maxRecDepth 10000 in
/-- C3 counterexample: the process exits naturally, the close handler
extracts and resolves, and the never-cancelled timer then runs extraction
again — two extraction invocations in one call, refuting "extraction runs
exactly once regardless of which path fired" (the resolution is still the
close handler's).  Stated at a concrete behavior and schedule. -/
theorem session_extraction_runs_twice :
    (runSession
        (SessionBehavior.mk none "\x7b\"name\":\"c3_tool\"\x7d" "" (some 0) "\x7b\"name\":\"c3_tool\"\x7d")
        [SessionEvent.closeEv, SessionEvent.timerEv]).extractCount = 2 ∧
    (runSession
        (SessionBehavior.mk none "\x7b\"name\":\"c3_tool\"\x7d" "" (some 0) "\x7b\"name\":\"c3_tool\"\x7d")
        [SessionEvent.closeEv, SessionEvent.timerEv]).settled =
      some (Except.ok [Json.str "c3_tool"]) :=
  ⟨rfl, rfl⟩

/-- C4 (amended): the five-strategy chain is reapplied to the accumulated
error-stream text only on the natural-exit path: when the close handler runs
on a still-pending session with an empty stdout extraction and non-empty
stderr, it resolves with the stderr extraction when that is non-empty.  On
the timeout path the resolved value never consults stderr. -/
theorem close_path_stderr_fallback (beh : SessionBehavior) (st : SessionState)
    (hpending : st.settled = none)
    (hout : extractToolsFromOutput beh.outAtClose = [])
    (herr : beh.errAtClose ≠ "")
    (hnames : (extractToolsFromOutput beh.errAtClose).length > 0) :
    (sessionStep beh st SessionEvent.closeEv).settled =
      some (Except.ok (extractToolsFromOutput beh.errAtClose)) := by
  simp [sessionStep, closeStep, hout, herr, hnames, settleOk, hpending]

set_option maxRecDepth 10000 in
/-- Witness for C4: a concrete natural exit with a silent stdout and tool
names on stderr resolves with the stderr names. -/
theorem close_path_stderr_fallback_witness :
    (sessionStep (SessionBehavior.mk none "" "\"name\": \"w4_tool\"" (some 1) "")
        initSession SessionEvent.closeEv).settled =
      some (Except.ok (extractToolsFromOutput "\"name\": \"w4_tool\"")) :=
  close_path_stderr_fallback (SessionBehavior.mk none "" "\"name\": \"w4_tool\"" (some 1) "")
    initSession rfl rfl (by decide) (by decide)

set_option maxRecDepth 10000 in
/-- C4 counterexample: the timeout fires first on a hung server whose only
output was on stderr; the timer resolves with the empty stdout extraction
and, although the close handler later finds the stderr names, the call has
already concluded empty — the chain's stderr reapplication does not happen
"before the call concludes" on this path. -/
theorem timeout_path_skips_stderr :
    (runSession (SessionBehavior.mk none "" "\"name\": \"c4_tool\"" none "")
        [SessionEvent.timerEv, SessionEvent.closeEv]).settled = some (Except.ok []) ∧
    extractToolsFromOutput "\"name\": \"c4_tool\"" = [Json.str "c4_tool"] :=
  ⟨rfl, rfl⟩

/-- Sequential composition of calls: the second call runs against the cache
produced by the first. -/
def discoverThen (ambient : List (String × String)) (prev : Option DiscoverOutcome)
    (serverId : String) (cfg : ServerConfig) (beh : SessionBehavior)
    (sched : List SessionEvent) : Option DiscoverOutcome :=
  prev.bind (fun o => discoverTools ambient o.cache serverId cfg beh sched)

/-- C5 (amended): provided the first call completes extraction (command
present, spawn does not fail, session settles), two successive calls with
the same serverId return identical results and spawn exactly one process —
the second is answered from the cache without spawning — and after
`clearCache()` a repeat call spawns afresh.  (Unconditionally the claim
fails: a first call that does not complete extraction caches nothing.) -/
theorem cache_idempotence (ambient : List (String × String)) (cache : Cache)
    (serverId : String) (cfg : ServerConfig) (beh1 beh2 beh3 : SessionBehavior)
    (sched1 sched2 sched3 : List SessionEvent)
    (hc : cacheGet cache serverId = none)
    (hcmd : commandFalsy cfg.command = false)
    (hbeh1 : beh1.spawnError = none)
    (ht1 : SessionEvent.timerEv ∈ sched1)
    (ht3 : SessionEvent.timerEv ∈ sched3) :
    (discoverTools ambient cache serverId cfg beh1 sched1).map
        (fun o => o.spawnCalls.length) = some 1 ∧
    (discoverThen ambient (discoverTools ambient cache serverId cfg beh1 sched1)
        serverId cfg beh2 sched2).map (fun o => (o.tools, o.spawnCalls.length)) =
      (discoverTools ambient cache serverId cfg beh1 sched1).map (fun o => (o.tools, 0)) ∧
    ((discoverThen ambient (discoverTools ambient cache serverId cfg beh1 sched1)
        serverId cfg beh2 sched2).bind
      (fun o => discoverTools ambient (clearCache o.cache) serverId cfg beh3 sched3)).map
        (fun o => o.spawnCalls.length) = some 1 := by
  obtain ⟨ts, hts⟩ := runSession_resolves_ok beh1 sched1 hbeh1 ht1
  have hthird : ∀ c : Cache,
      (discoverTools ambient (clearCache c) serverId cfg beh3 sched3).map
        (fun o => o.spawnCalls.length) = some 1 := by
    intro c
    obtain ⟨v, hv⟩ := Option.isSome_iff_exists.mp (runSession_settles beh3 sched3 ht3)
    cases v <;> simp [discoverTools, clearCache, cacheGet_nil, hcmd, hv]
  refine ⟨?_, ?_, ?_⟩
  · simp [discoverTools, hc, hcmd, hts]
  · simp [discoverThen, discoverTools, hc, hcmd, hts, cacheGet_cacheSet_same]
  · obtain ⟨o2, ho2, hcache2⟩ : ∃ o2,
        discoverThen ambient (discoverTools ambient cache serverId cfg beh1 sched1)
          serverId cfg beh2 sched2 = some o2 ∧ o2.cache = cacheSet cache serverId ts := by
      simp [discoverThen, discoverTools, hc, hcmd, hts, cacheGet_cacheSet_same]
    rw [ho2]
    show (discoverTools ambient (clearCache o2.cache) serverId cfg beh3 sched3).map
        (fun o => o.spawnCalls.length) = some 1
    rw [hcache2]
    exact hthird _

set_option maxRecDepth 10000 in
/-- Witness for C5: a concrete first call that discovers one tool; the
second call returns the same result from the cache with no spawn; a call
after `clearCache()` spawns again. -/
theorem cache_idempotence_witness :
    (discoverTools [] [] "w5" (ServerConfig.mk (some "srv-cmd") none none)
        (SessionBehavior.mk none "\x7b\"name\":\"w5_tool\"\x7d" "" (some 0) "")
        [SessionEvent.closeEv, SessionEvent.timerEv]).map
      (fun o => o.spawnCalls.length) = some 1 ∧
    (discoverThen [] (discoverTools [] [] "w5" (ServerConfig.mk (some "srv-cmd") none none)
        (SessionBehavior.mk none "\x7b\"name\":\"w5_tool\"\x7d" "" (some 0) "")
        [SessionEvent.closeEv, SessionEvent.timerEv]) "w5"
        (ServerConfig.mk (some "srv-cmd") none none)
        (SessionBehavior.mk none "" "" none "") []).map
      (fun o => (o.tools, o.spawnCalls.length)) =
      (discoverTools [] [] "w5" (ServerConfig.mk (some "srv-cmd") none none)
        (SessionBehavior.mk none "\x7b\"name\":\"w5_tool\"\x7d" "" (some 0) "")
        [SessionEvent.closeEv, SessionEvent.timerEv]).map (fun o => (o.tools, 0)) ∧
    ((discoverThen [] (discoverTools [] [] "w5" (ServerConfig.mk (some "srv-cmd") none none)
        (SessionBehavior.mk none "\x7b\"name\":\"w5_tool\"\x7d" "" (some 0) "")
        [SessionEvent.closeEv, SessionEvent.timerEv]) "w5"
        (ServerConfig.mk (some "srv-cmd") none none)
        (SessionBehavior.mk none "" "" none "") []).bind
      (fun o => discoverTools [] (clearCache o.cache) "w5"
        (ServerConfig.mk (some "srv-cmd") none none)
        (SessionBehavior.mk none "" "" none "") [SessionEvent.timerEv])).map
      (fun o => o.spawnCalls.length) = some 1 :=
  cache_idempotence [] [] "w5" (ServerConfig.mk (some "srv-cmd") none none)
    (SessionBehavior.mk none "\x7b\"name\":\"w5_tool\"\x7d" "" (some 0) "")
    (SessionBehavior.mk none "" "" none "") (SessionBehavior.mk none "" "" none "")
    [SessionEvent.closeEv, SessionEvent.timerEv] [] [SessionEvent.timerEv]
    rfl rfl rfl (by decide) (by decide)

set_option maxRecDepth 10000 in
/-- C5 counterexample: when the first call's spawn fails nothing is cached;
over the two successive calls the engine spawns twice (once per call), and
the results differ — refuting the unconditional "identical results and
exactly one spawn". -/
theorem double_call_spawn_failure :
    (discoverTools [] [] "c5" (ServerConfig.mk (some "cmd") none none)
        (SessionBehavior.mk (some "ENOENT") "" "" none "")
        [SessionEvent.errorEv, SessionEvent.timerEv]).map
      (fun o => (o.tools, o.cache, o.spawnCalls.length)) = some ([], [], 1) ∧
    (discoverTools [] [] "c5" (ServerConfig.mk (some "cmd") none none)
        (SessionBehavior.mk none "\x7b\"name\":\"c5_tool\"\x7d" "" (some 0) "")
        [SessionEvent.closeEv, SessionEvent.timerEv]).map
      (fun o => (o.tools, o.spawnCalls.length)) = some ([Json.str "c5_tool"], 1) :=
  ⟨rfl, rfl⟩

/-- C8 (amended): a result produced on the fall-through path — when neither
the JSON-RPC strategy nor the functions/tools strategy returns early — is
deduplicated by the final `[...new Set(tools)]`, so its names are pairwise
distinct.  (The early-return paths skip that dedup; see the counterexample.) -/
theorem extraction_fallthrough_nodup (out : String) (acc0 acc1 : List Json)
    (h0 : foldEarly p0Step (p0Matches out) [] = Sum.inr acc0)
    (h1 : foldEarly p1Step (p1Matches out) acc0 = Sum.inr acc1) :
    (extractToolsFromOutput out).Nodup := by
  unfold extractToolsFromOutput
  split
  · simp
  · simp only [h0, h1]
    exact dedupSet_nodup _

set_option maxRecDepth 10000 in
/-- Witness for C8: a concrete output handled by the heuristic identifier
scan (no early return) yields a duplicate-free result. -/
theorem extraction_fallthrough_nodup_witness :
    (extractToolsFromOutput "alpha_tool beta_tool alpha_tool").Nodup :=
  extraction_fallthrough_nodup "alpha_tool beta_tool alpha_tool" [] [] rfl rfl

set_option maxRecDepth 10000 in
/-- C8 counterexample: the JSON-RPC strategy's early `return tools` skips
the final Set dedup, so a response listing the same name twice is returned
with the duplicate — the result's names are not pairwise distinct.  (The
`result` key precedes `jsonrpc` here so the candidate substring is complete
and parses.) -/
theorem extraction_duplicate_names :
    extractToolsFromOutput
        "\x7b\"result\":\x7b\"tools\":[\x7b\"name\":\"dup\"\x7d,\x7b\"name\":\"dup\"\x7d]\x7d,\"jsonrpc\":\"2.0\"\x7d" =
      [Json.str "dup", Json.str "dup"] ∧
    ¬ (extractToolsFromOutput
        "\x7b\"result\":\x7b\"tools\":[\x7b\"name\":\"dup\"\x7d,\x7b\"name\":\"dup\"\x7d]\x7d,\"jsonrpc\":\"2.0\"\x7d").Nodup :=
  ⟨rfl, by decide⟩

set_option maxRecDepth 10000 in
/-- C2: evaluation at the failing input.  The output holds a complete,
valid JSON-RPC `tools/list` response (first line; parsed here to witness
the premise: `jsonrpc` is `"2.0"` and `result.tools` carries the name `a`)
and a separate OpenAI-style `functions` object (second line, carrying
`f1`).  Extraction returns `[a, f1]`: the `functions` name IS merged in,
because the lazy JSON-RPC candidate regex truncates the nested response at
the first `}` after `"2.0"`, the truncated candidates of strategies 1–2
fail to parse, and the key-declaration scan then collects names from both
blocks — contradicting the claimed priority ordering, though the
first-nonempty-strategy short-circuit itself is structural (strategies 2–5
run only under `tools.length === 0`). -/
theorem rpc_priority_violated :
    ((jsonParse "\x7b\"jsonrpc\":\"2.0\",\"id\":1,\"result\":\x7b\"tools\":[\x7b\"name\":\"a\"\x7d]\x7d\x7d").bind
      (fun j => jsGetProp j "jsonrpc")) = some (Json.str "2.0") ∧
    (((jsonParse "\x7b\"jsonrpc\":\"2.0\",\"id\":1,\"result\":\x7b\"tools\":[\x7b\"name\":\"a\"\x7d]\x7d\x7d").bind
      (fun j => jsGetProp j "result")).bind (fun r => jsGetProp r "tools")) =
      some (Json.arr (JsonList.cons
        (Json.obj (JsonFields.cons "name" (Json.str "a") JsonFields.nil)) JsonList.nil)) ∧
    ((jsonParse "\x7b\"functions\":[\x7b\"name\":\"f1\"\x7d]\x7d").bind
      (fun j => jsGetProp j "functions")) =
      some (Json.arr (JsonList.cons
        (Json.obj (JsonFields.cons "name" (Json.str "f1") JsonFields.nil)) JsonList.nil)) ∧
    extractToolsFromOutput
        "\x7b\"jsonrpc\":\"2.0\",\"id\":1,\"result\":\x7b\"tools\":[\x7b\"name\":\"a\"\x7d]\x7d\x7d\n\x7b\"functions\":[\x7b\"name\":\"f1\"\x7d]\x7d" =
      [Json.str "a", Json.str "f1"] :=
  ⟨rfl, rfl, rfl, rfl⟩

set_option maxRecDepth 10000 in
/-- C6: evaluation at the failing input.  The output is itself a valid
JSON-RPC 2.0 object whose `result.tools` is `[{"name":"a"},{"name":"b"}]`
(parsed here to witness the premise), yet extraction returns `["b"]`, not
`{"a","b"}`: the lazy candidate regex stops at the first `}` after
`"2.0"`, the truncated candidate fails `JSON.parse`, and the flat trailing
fragment `{"name":"b"}` wins through the single-object branch of
strategy 2. -/
theorem jsonrpc_names_lost :
    ((jsonParse "\x7b\"jsonrpc\":\"2.0\",\"id\":1,\"result\":\x7b\"tools\":[\x7b\"name\":\"a\"\x7d,\x7b\"name\":\"b\"\x7d]\x7d\x7d").bind
      (fun j => jsGetProp j "jsonrpc")) = some (Json.str "2.0") ∧
    (((jsonParse "\x7b\"jsonrpc\":\"2.0\",\"id\":1,\"result\":\x7b\"tools\":[\x7b\"name\":\"a\"\x7d,\x7b\"name\":\"b\"\x7d]\x7d\x7d").bind
      (fun j => jsGetProp j "result")).bind (fun r => jsGetProp r "tools")) =
      some (Json.arr (JsonList.cons
        (Json.obj (JsonFields.cons "name" (Json.str "a") JsonFields.nil))
        (JsonList.cons (Json.obj (JsonFields.cons "name" (Json.str "b") JsonFields.nil))
          JsonList.nil))) ∧
    extractToolsFromOutput
        "\x7b\"jsonrpc\":\"2.0\",\"id\":1,\"result\":\x7b\"tools\":[\x7b\"name\":\"a\"\x7d,\x7b\"name\":\"b\"\x7d]\x7d\x7d" =
      [Json.str "b"] ∧
    Json.str "a" ∉ extractToolsFromOutput
      "\x7b\"jsonrpc\":\"2.0\",\"id\":1,\"result\":\x7b\"tools\":[\x7b\"name\":\"a\"\x7d,\x7b\"name\":\"b\"\x7d]\x7d\x7d" :=
  ⟨rfl, rfl, rfl, by decide⟩
